import Mathlib

/-!
A shallow embedding of `src/textOnGif.ts` (class `TextOnGif`): the text
wrapping routine `createTextRows`, the layout computation and per-frame
compositing loop of `#renderGIF`, and the output accessors `toBuffer` and
`toFile`.

Modelling conventions:
* JS numbers are modelled as `ℚ` (the arithmetic appearing in the source is
  addition, subtraction, multiplication and halving, all exact on floats of
  this size, hence exact on `ℚ`).
* The canvas measuring capability `ctx.measureText(s).width` is an arbitrary
  parameter `m : String → ℚ`; `measureText` of the external canvas is a pure
  function of the string for a fixed font.
* The working surface is a free algebra `Surface`: painting an image and
  drawing text are constructors; `getImageData(0,0,w,h)` over the full canvas
  snapshots the current value, `putImageData(img,0,0)` of a full-canvas
  snapshot replaces the surface by that value, and `clearRect(0,0,w,h)`
  yields `Surface.blank`.  Two surfaces are byte-identical exactly when they
  are equal in this model.
* Every observable interaction (drawing calls, encoder calls, emitted frame
  index events) is recorded in a trace of `Ev` values.  The external encoder
  is deterministic in its inputs, so the encoded output buffer is modelled as
  the sublist of encoder calls of the trace.
* JS `text.split(" ")` and `array.join(" ")` are embedded directly on the
  underlying character lists (`splitSp` / `joinSp`).
-/

/-- Prepend a character to the first fragment of a fragment list. -/
def consHead (c : Char) : List (List Char) → List (List Char)
  | r :: rs => (c :: r) :: rs
  | [] => [[c]]

/-- JS `text.split(" ")` on the underlying character list: split at every
space character.  Adjacent or boundary separators produce empty fragments and
the empty list yields one empty fragment, exactly as in JS. -/
def splitSp : List Char → List (List Char)
  | [] => [[]]
  | c :: cs => if c = ' ' then [] :: splitSp cs else consHead c (splitSp cs)

/-- JS `array.join(" ")` on character lists: interleave a single space. -/
def joinSp : List (List Char) → List Char
  | [] => []
  | [l] => l
  | l :: ls => l ++ ' ' :: joinSp ls

/-- JS `text.split(" ")`. -/
def jsSplit (s : String) : List String :=
  (splitSp s.data).map fun l => ⟨l⟩

/-- JS `array.join(" ")`. -/
def jsJoin (l : List String) : String :=
  ⟨joinSp (l.map String.data)⟩

/-- The `TextOptions` interface of `src/types` (field `repeat` of the source
is named `repeatCount` here because `repeat` is reserved in Lean). -/
structure TextOptions where
  fontFamily : String
  fontColor : String
  strokeColor : String
  fontSize : String
  strokeWidth : ℚ
  alignmentX : String
  alignmentY : String
  offsetX : ℚ
  offsetY : ℚ
  positionX : Option ℚ
  positionY : Option ℚ
  rowGap : ℚ
  repeatCount : Int
  retain : Bool
  transparent : Bool
deriving DecidableEq

/-- The source's default `textOptions` initialiser. -/
def defaultTextOptions : TextOptions where
  fontFamily := "calibri"
  fontColor := "white"
  strokeColor := "transparent"
  fontSize := "32px"
  strokeWidth := 1
  alignmentX := "center"
  alignmentY := "bottom"
  offsetX := 10
  offsetY := 10
  positionX := none
  positionY := none
  rowGap := 5
  repeatCount := 0
  retain := false
  transparent := false

/-- The `CanvasOptions` interface: anchor point and text alignment state. -/
structure CanvasOptions where
  x : ℚ
  y : ℚ
  textAlign : String
  textBaseline : String
deriving DecidableEq

/-- The source's default `canvasOptions` initialiser. -/
def defaultCanvasOptions : CanvasOptions where
  x := 0
  y := 0
  textAlign := "start"
  textBaseline := "bottom"

/-- The `Row` interface: one wrapped line of text. -/
structure Row where
  text : String
deriving DecidableEq

/-- One canvas text-drawing call with the context style state it uses. -/
inductive Draw where
  | strokeText (s : String) (x y : ℚ) (strokeStyle : String) (lineWidth : ℚ)
  | fillText (s : String) (x y : ℚ) (fillStyle : String)
deriving DecidableEq

/-- The working surface as a free algebra of the drawing operations the
source performs.  `painted` is `ctx.drawImage(img, 0, 0)` of the decoded
frame image `img`; `withDraw` is one `strokeText`/`fillText` call. -/
inductive Surface where
  | blank
  | painted (base : Surface) (img : Nat)
  | withDraw (base : Surface) (d : Draw)
deriving DecidableEq

/-- A frame's `imageData` field: either a decoded `Image` (identified by an
id, with a flag recording whether drawing it throws, e.g. because the frame
failed to decode), or a full-canvas `ImageData` snapshot stored back by the
retain writeback. -/
inductive Img where
  | ext (id : Nat) (bad : Bool)
  | snap (s : Surface)
deriving DecidableEq

/-- The `ExtractedFrame` interface. -/
structure ExtractedFrame where
  imageData : Img
  delay : ℚ
  disposal : Nat
deriving DecidableEq

/-- Observable events of one render: emitted frame indices, canvas drawing
calls, encoder calls, and console logging (which `#renderGIF` never does —
its catch block is empty — but which the model can express). -/
inductive Ev where
  | frameIndexUpdate (i : Nat)
  | draw (d : Draw)
  | consoleError
  | encSetTransparent
  | encSetRepeat (n : Int)
  | encStart
  | encSetDelay (d : ℚ)
  | encSetDispose (d : Nat)
  | encAddFrame (s : Surface)
  | encFinish
deriving DecidableEq

/-- The mutable instance state of a `TextOnGif` object (the fields touched by
rendering; the `source` field and the extraction bookkeeping are external). -/
structure GifState where
  text : String
  textOptions : TextOptions
  canvasOptions : CanvasOptions
  rows : List Row
  width : ℚ
  height : ℚ
  extractedFrames : List ExtractedFrame
  buffer : Option (List Ev)
  retained : Bool
deriving DecidableEq

/-- Loop state of `createTextRows`: the growing preview line, the committed
line under construction, and the rows pushed so far. -/
structure WrapState where
  previewText : List String
  lineText : List String
  rows : List Row
deriving DecidableEq

/-- One iteration of the `for (var word of this.text.split(" "))` loop of
`createTextRows`: push the word onto the preview, and if the measured
preview exceeds the width, commit the line accumulated before this word and
start over; in every case the word is then pushed onto the line. -/
def wrapStep (m : String → ℚ) (w : ℚ) (st : WrapState) (word : String) : WrapState :=
  let preview := st.previewText ++ [word]
  if m (jsJoin preview) > w then
    { previewText := [word]
      lineText := [word]
      rows := st.rows ++ [⟨jsJoin st.lineText⟩] }
  else
    { previewText := preview
      lineText := st.lineText ++ [word]
      rows := st.rows }

/-- `createTextRows(ctx)`: wrap `text` into rows, pushing onto the instance's
current `rows` (the source appends to `this.rows` without clearing it).  The
final accumulated line is always pushed as a last row. -/
def createTextRows (m : String → ℚ) (w : ℚ) (text : String) (rows₀ : List Row) :
    List Row :=
  let fin := (jsSplit text).foldl (wrapStep m w) ⟨[], [], rows₀⟩
  fin.rows ++ [⟨jsJoin fin.lineText⟩]

/-- The anchor/alignment computation of `#renderGIF` (lines 283-342): explicit
positions win over alignment; the vertical branch depends on the row count. -/
def computeCanvasOptions (opts : TextOptions) (width height lh : ℚ)
    (rows : List Row) (co : CanvasOptions) : CanvasOptions :=
  let co1 :=
    match opts.positionX with
    | some px => { co with textAlign := "start", x := px }
    | none =>
      if opts.alignmentX = "right" then
        { co with textAlign := "right", x := width - opts.offsetX }
      else if opts.alignmentX = "left" then
        { co with textAlign := "left", x := opts.offsetX }
      else if opts.alignmentX = "center" then
        { co with textAlign := "center", x := width / 2 }
      else co
  match opts.positionY with
  | some py => { co1 with textBaseline := "top", y := py }
  | none =>
    if rows.length = 1 then
      if opts.alignmentY = "top" then
        { co1 with textBaseline := "hanging", y := opts.offsetY }
      else if opts.alignmentY = "middle" then
        { co1 with textBaseline := "middle", y := height / 2 }
      else
        { co1 with textBaseline := "bottom", y := height - opts.offsetY }
    else
      if opts.alignmentY = "top" then
        { co1 with textBaseline := "hanging", y := opts.offsetY }
      else if opts.alignmentY = "middle" then
        { co1 with
          textBaseline := "top"
          y := (height - ((rows.length : ℚ) * lh + ((rows.length : ℚ) - 1) * opts.rowGap)) / 2 }
      else
        { co1 with
          textBaseline := "bottom"
          y := height - (((rows.length : ℚ) - 1) * (lh + opts.rowGap) + opts.offsetY) }

/-- Painting a frame's `imageData` onto the surface (lines 347-356).  With
`retained` false the source calls `ctx.drawImage`, which throws for an image
that failed to decode and for an `ImageData` argument (node-canvas accepts
only `Image`/`Canvas` there); with `retained` true it calls
`ctx.putImageData`, which conversely requires an `ImageData` (a full-canvas
snapshot, which it writes back verbatim) and throws on an `Image`. -/
def tryPaint (s : Surface) (retained : Bool) (img : Img) : Except Unit Surface :=
  if retained then
    match img with
    | .snap sn => .ok sn
    | .ext _ _ => .error ()
  else
    match img with
    | .ext id bad => if bad then .error () else .ok (.painted s id)
    | .snap _ => .error ()

/-- Whether painting this `imageData` fails (independent of the surface). -/
def paintFails (retained : Bool) (img : Img) : Bool :=
  match tryPaint Surface.blank retained img with
  | .ok _ => false
  | .error _ => true

/-- The surface after the guarded paint: the catch block of the source is
empty, so a failure leaves the surface unchanged (and logs nothing). -/
def paintStep (s : Surface) (retained : Bool) (img : Img) : Surface :=
  match tryPaint s retained img with
  | .ok s' => s'
  | .error _ => s

/-- The text-drawing calls of one frame (lines 373-385): with exactly one row
the whole `text` is drawn at the anchor; otherwise each row of the reversed
row list is drawn `rowIndex * (lineHeight + rowGap)` above the anchor.  Every
row is stroked and then filled, unconditionally. -/
def drawTextCalls (opts : TextOptions) (co : CanvasOptions) (rows : List Row)
    (text : String) (lh : ℚ) : List Draw :=
  if rows.length = 1 then
    [.strokeText text co.x co.y opts.strokeColor opts.strokeWidth,
     .fillText text co.x co.y opts.fontColor]
  else
    (List.range rows.length).flatMap fun rowIndex =>
      let lineText := (rows.reverse.getD rowIndex ⟨""⟩).text
      let y := co.y - (rowIndex : ℚ) * (lh + opts.rowGap)
      [.strokeText lineText co.x y opts.strokeColor opts.strokeWidth,
       .fillText lineText co.x y opts.fontColor]

/-- The snapshot step (lines 369-371): capture `withoutText` exactly when the
frame's disposal is not `RestoreToBackground` (2). -/
def snapshotStep (disposal : Nat) (s : Surface) : Option Surface :=
  if disposal ≠ 2 then some s else none

/-- The restore step (lines 399-403): clear on disposal 2, otherwise put the
`withoutText` snapshot back.  The Boolean records whether the non-null
assertion `withoutText!` was violated (reading an unset snapshot). -/
def restoreStep (disposal : Nat) (withoutText : Option Surface) : Surface × Bool :=
  if disposal = 2 then (Surface.blank, false)
  else
    match withoutText with
    | some sn => (sn, false)
    | none => (Surface.blank, true)

/-- Parameters of the per-frame loop that are fixed before the loop starts. -/
structure StepParams where
  opts : TextOptions
  co : CanvasOptions
  text : String
  width : ℚ
  height : ℚ
  lh : ℚ
  retained : Bool
deriving DecidableEq

/-- The observable outcome of processing one frame, with ghost fields
(`frame`, `preText`) recording the input frame and the surface state after
painting and before text drawing. -/
structure FrameResult where
  frame : ExtractedFrame
  preText : Surface
  snapshot : Option Surface
  draws : List Draw
  committed : Surface
  post : Surface
  nullDeref : Bool
  rows : List Row
  frame' : ExtractedFrame
  events : List Ev
deriving DecidableEq

/-- One iteration of the frame loop of `#renderGIF` (lines 344-404): emit the
frame index, paint the frame (failures swallowed), re-wrap if the row list is
empty, snapshot unless disposal is 2, draw the text, hand delay, disposal and
the composited surface to the encoder, write the composited pixels back into
the frame slot under retain mode, then clear or restore the surface. -/
def frameStep (P : StepParams) (m : String → ℚ) (i : Nat) (f : ExtractedFrame)
    (rows : List Row) (s : Surface) : FrameResult :=
  let s1 := paintStep s P.retained f.imageData
  let rows1 := if rows.length = 0 then createTextRows m P.width P.text rows else rows
  let withoutText := snapshotStep f.disposal s1
  let draws := drawTextCalls P.opts P.co rows1 P.text P.lh
  let s2 := draws.foldl Surface.withDraw s1
  let fr' := if P.opts.retain then { f with imageData := Img.snap s2 } else f
  let rest := restoreStep f.disposal withoutText
  { frame := f
    preText := s1
    snapshot := withoutText
    draws := draws
    committed := s2
    post := rest.1
    nullDeref := rest.2
    rows := rows1
    frame' := fr'
    events := Ev.frameIndexUpdate i ::
      (draws.map Ev.draw ++
        [Ev.encSetDelay f.delay, Ev.encSetDispose f.disposal, Ev.encAddFrame s2]) }

/-- The frame loop: process the stored frames strictly in order, threading
the row list and the working surface. -/
def runFrames (P : StepParams) (m : String → ℚ) :
    Nat → List ExtractedFrame → List Row → Surface → List FrameResult
  | _, [], _, _ => []
  | i, f :: fs, rows, s =>
    let r := frameStep P m i f rows s
    r :: runFrames P m (i + 1) fs r.rows r.post

/-- The pre-loop phase of `#renderGIF`: the approximate line height is the
measured width of the glyph `M`, the rows are wrapped (appending to the
instance's current rows), and the anchor is computed from the resulting row
count. -/
def stepParams (m : String → ℚ) (st : GifState) : StepParams × List Row :=
  let lh := m "M"
  let rows1 := createTextRows m st.width st.text st.rows
  let co := computeCanvasOptions st.textOptions st.width st.height lh rows1
    st.canvasOptions
  (⟨st.textOptions, co, st.text, st.width, st.height, lh, st.retained⟩, rows1)

/-- The per-frame results of one render. -/
def renderResults (m : String → ℚ) (st : GifState) : List FrameResult :=
  let pr := stepParams m st
  runFrames pr.1 m 0 st.extractedFrames pr.2 Surface.blank

/-- The encoder initialisation calls (lines 263-274): `setTransparent` only
under the transparent option, then `setRepeat` and `start`. -/
def encInit (opts : TextOptions) : List Ev :=
  (if opts.transparent then [Ev.encSetTransparent] else []) ++
    [Ev.encSetRepeat opts.repeatCount, Ev.encStart]

/-- The full observable trace of one `#renderGIF` call. -/
def renderTrace (m : String → ℚ) (st : GifState) : List Ev :=
  encInit st.textOptions ++ ((renderResults m st).map (·.events)).flatten ++
    [Ev.encFinish]

/-- Whether an event is a call into the encoder. -/
def isEncEv : Ev → Bool
  | .encSetTransparent | .encSetRepeat _ | .encStart | .encSetDelay _
  | .encSetDispose _ | .encAddFrame _ | .encFinish => true
  | _ => false

/-- The encoder's view of a trace; the encoded byte buffer is a deterministic
function of exactly these calls. -/
def encFilter (t : List Ev) : List Ev := t.filter isEncEv

/-- The instance's rows after the loop (the loop may refill them). -/
def lastRows (rows1 : List Row) (rs : List FrameResult) : List Row :=
  ((rs.getLast?).map (·.rows)).getD rows1

/-- `#renderGIF`: run the pipeline and store the updated instance state; the
resulting encoded buffer (the encoder's inputs) is stored in `buffer`. -/
def renderGIF (m : String → ℚ) (st : GifState) : GifState :=
  let pr := stepParams m st
  let rs := runFrames pr.1 m 0 st.extractedFrames pr.2 Surface.blank
  { st with
    rows := lastRows pr.2 rs
    canvasOptions := pr.1.co
    extractedFrames := rs.map (·.frame')
    buffer := some (encFilter (renderTrace m st)) }

/-- The buffer check of `toFile` (lines 209-214): a JS `Buffer` object is
truthy whenever it is non-null (even when empty), so the distinct error is
raised exactly when the buffer is absent. -/
def toFileCheck : Option (List Ev) → Except String Bool
  | some _ => .ok true
  | none => .error "Result GIF buffer returned empty"

/-- The return of `toBuffer` (line 248): `return this.buffer!` — the non-null
assertion is a type-level cast only; at run time the buffer is returned as
is, and no error is ever raised. -/
def toBufferReturn (b : Option (List Ev)) : Except String (Option (List Ev)) :=
  .ok b

/-- `toFile`: render unconditionally, then write or raise. -/
def toFile (m : String → ℚ) (st : GifState) : GifState × Except String Bool :=
  let st' := renderGIF m st
  (st', toFileCheck st'.buffer)

/-- `toBuffer`: render unconditionally, then return the stored buffer. -/
def toBuffer (m : String → ℚ) (st : GifState) :
    GifState × Except String (Option (List Ev)) :=
  let st' := renderGIF m st
  (st', toBufferReturn st'.buffer)

/-- A concrete measuring capability for witnesses: width = number of
characters. -/
def mlen : String → ℚ := fun s => (s.length : ℚ)

/-- Default frame value used with `List.getD`. -/
def dfrm : ExtractedFrame := ⟨.ext 0 false, 0, 0⟩

/-- Default frame result used with `List.getD` / `List.headD`. -/
def dfr : FrameResult where
  frame := dfrm
  preText := .blank
  snapshot := none
  draws := []
  committed := .blank
  post := .blank
  nullDeref := false
  rows := []
  frame' := dfrm
  events := []

/-- A concrete decoded frame with disposal `DoNotDispose` (1). -/
def f1 : ExtractedFrame := ⟨.ext 0 false, 40, 1⟩

/-- A concrete freshly-configured instance: text `"ab"`, default options,
a 100×50 animation with one stored frame. -/
def st1 : GifState where
  text := "ab"
  textOptions := defaultTextOptions
  canvasOptions := defaultCanvasOptions
  rows := []
  width := 100
  height := 50
  extractedFrames := [f1]
  buffer := none
  retained := false

/-- A concrete decoded frame with disposal 0. -/
def f3 : ExtractedFrame := ⟨.ext 0 false, 40, 0⟩

/-- Like `st1` but with the disposal-0 frame. -/
def st3 : GifState := { st1 with extractedFrames := [f3] }

/-- A concrete frame whose image fails to paint. -/
def f6 : ExtractedFrame := ⟨.ext 7 true, 40, 0⟩

/-- Like `st1` but with the failing frame. -/
def st6 : GifState := { st1 with extractedFrames := [f6] }

/-- A concrete anchor state. -/
def co3 : CanvasOptions := ⟨50, 40, "center", "bottom"⟩

/-- Concrete per-frame loop parameters with the default options. -/
def P3 : StepParams := ⟨defaultTextOptions, co3, "ab", 100, 50, 1, false⟩

/-- A concrete two-row layout. -/
def rows2 : List Row := [⟨"a"⟩, ⟨"b"⟩]


/-! ### Per-frame step lemmas -/

theorem frameStep_frame (P : StepParams) (m : String → ℚ) (i : Nat)
    (f : ExtractedFrame) (rows : List Row) (s : Surface) :
    (frameStep P m i f rows s).frame = f := rfl

theorem frameStep_preText (P : StepParams) (m : String → ℚ) (i : Nat)
    (f : ExtractedFrame) (rows : List Row) (s : Surface) :
    (frameStep P m i f rows s).preText = paintStep s P.retained f.imageData := rfl

theorem frameStep_events (P : StepParams) (m : String → ℚ) (i : Nat)
    (f : ExtractedFrame) (rows : List Row) (s : Surface) :
    (frameStep P m i f rows s).events =
      Ev.frameIndexUpdate i ::
        ((frameStep P m i f rows s).draws.map Ev.draw ++
          [Ev.encSetDelay f.delay, Ev.encSetDispose f.disposal,
            Ev.encAddFrame (frameStep P m i f rows s).committed]) := rfl

theorem frameStep_draws (P : StepParams) (m : String → ℚ) (i : Nat)
    (f : ExtractedFrame) (rows : List Row) (s : Surface) :
    (frameStep P m i f rows s).draws =
      drawTextCalls P.opts P.co
        (if rows.length = 0 then createTextRows m P.width P.text rows else rows)
        P.text P.lh := rfl

theorem frameStep_rows_of_ne_nil (P : StepParams) (m : String → ℚ) (i : Nat)
    (f : ExtractedFrame) (rows : List Row) (s : Surface) (h : rows ≠ []) :
    (frameStep P m i f rows s).rows = rows := by
  show (if rows.length = 0 then createTextRows m P.width P.text rows else rows) = rows
  rw [if_neg (by simpa using h)]

theorem restoreStep_snapshotStep (d : Nat) (s : Surface) :
    restoreStep d (snapshotStep d s) = (if d = 2 then Surface.blank else s, false) := by
  by_cases hd : d = 2
  · simp [restoreStep, snapshotStep, hd]
  · simp [restoreStep, snapshotStep, hd]

theorem frameStep_post (P : StepParams) (m : String → ℚ) (i : Nat)
    (f : ExtractedFrame) (rows : List Row) (s : Surface) :
    (frameStep P m i f rows s).post =
      (if f.disposal = 2 then Surface.blank else (frameStep P m i f rows s).preText) := by
  show (restoreStep f.disposal (snapshotStep f.disposal
      (paintStep s P.retained f.imageData))).1 = _
  rw [restoreStep_snapshotStep]
  rfl

theorem frameStep_nullDeref (P : StepParams) (m : String → ℚ) (i : Nat)
    (f : ExtractedFrame) (rows : List Row) (s : Surface) :
    (frameStep P m i f rows s).nullDeref = false := by
  show (restoreStep f.disposal (snapshotStep f.disposal
      (paintStep s P.retained f.imageData))).2 = false
  rw [restoreStep_snapshotStep]

theorem frameStep_snapshot (P : StepParams) (m : String → ℚ) (i : Nat)
    (f : ExtractedFrame) (rows : List Row) (s : Surface) :
    (frameStep P m i f rows s).snapshot =
      (if f.disposal = 2 then none else some (frameStep P m i f rows s).preText) := by
  show snapshotStep f.disposal (paintStep s P.retained f.imageData) = _
  by_cases hd : f.disposal = 2
  · simp [snapshotStep, hd]
  · simp [snapshotStep, hd, frameStep_preText]

theorem paintStep_of_fails (s : Surface) (retained : Bool) (img : Img)
    (h : paintFails retained img = true) : paintStep s retained img = s := by
  cases img with
  | ext id bad =>
    cases retained with
    | true => rfl
    | false =>
      cases bad with
      | true => rfl
      | false => simp [paintFails, tryPaint] at h
  | snap sn =>
    cases retained with
    | true => simp [paintFails, tryPaint] at h
    | false => rfl

/-! ### Frame-loop lemmas -/

theorem runFrames_map_frame (P : StepParams) (m : String → ℚ) :
    ∀ (fs : List ExtractedFrame) (i : Nat) (rows : List Row) (s : Surface),
      (runFrames P m i fs rows s).map (·.frame) = fs
  | [], _, _, _ => rfl
  | f :: fs, i, rows, s => by
    simp [runFrames, runFrames_map_frame P m fs, frameStep_frame]

theorem runFrames_mem (P : StepParams) (m : String → ℚ) :
    ∀ (fs : List ExtractedFrame) (i : Nat) (rows : List Row) (s : Surface)
      (r : FrameResult), r ∈ runFrames P m i fs rows s →
      ∃ j f rows' s', r = frameStep P m j f rows' s'
  | f :: fs, i, rows, s, r, hr => by
    simp only [runFrames, List.mem_cons] at hr
    rcases hr with h | h
    · exact ⟨i, f, rows, s, h⟩
    · exact runFrames_mem P m fs (i + 1) _ _ r h

theorem runFrames_getD (P : StepParams) (m : String → ℚ) :
    ∀ (fs : List ExtractedFrame) (i : Nat) (rows : List Row) (s : Surface)
      (j : Nat), j < fs.length →
      ∃ rows' s', (runFrames P m i fs rows s).getD j dfr =
        frameStep P m (i + j) (fs.getD j dfrm) rows' s'
  | f :: fs, i, rows, s, 0, _ => ⟨rows, s, by simp [runFrames]⟩
  | f :: fs, i, rows, s, j + 1, h => by
    obtain ⟨rows', s', ih⟩ :=
      runFrames_getD P m fs (i + 1)
        (frameStep P m i f rows s).rows (frameStep P m i f rows s).post j
        (by simp only [List.length_cons] at h; omega)
    refine ⟨rows', s', ?_⟩
    have hidx : i + (j + 1) = (i + 1) + j := by omega
    simpa [runFrames, hidx] using ih

theorem encFilter_map_draw (ds : List Draw) : encFilter (ds.map Ev.draw) = [] := by
  induction ds with
  | nil => rfl
  | cons d ds ih =>
    show List.filter isEncEv (Ev.draw d :: ds.map Ev.draw) = []
    rw [List.filter_cons_of_neg (by simp [isEncEv])]
    exact ih

theorem encFilter_frameStep_events (P : StepParams) (m : String → ℚ) (i : Nat)
    (f : ExtractedFrame) (rows : List Row) (s : Surface) :
    encFilter (frameStep P m i f rows s).events =
      [Ev.encSetDelay f.delay, Ev.encSetDispose f.disposal,
        Ev.encAddFrame (frameStep P m i f rows s).committed] := by
  rw [frameStep_events]
  show List.filter isEncEv ((frameStep P m i f rows s).draws.map Ev.draw ++
    [Ev.encSetDelay f.delay, Ev.encSetDispose f.disposal,
      Ev.encAddFrame (frameStep P m i f rows s).committed]) = _
  rw [List.filter_append]
  rw [show List.filter isEncEv ((frameStep P m i f rows s).draws.map Ev.draw) = []
    from encFilter_map_draw _]
  rfl

theorem runFrames_encFilter (P : StepParams) (m : String → ℚ) :
    ∀ (fs : List ExtractedFrame) (i : Nat) (rows : List Row) (s : Surface),
      encFilter (((runFrames P m i fs rows s).map (·.events)).flatten) =
        ((runFrames P m i fs rows s).map fun r =>
          [Ev.encSetDelay r.frame.delay, Ev.encSetDispose r.frame.disposal,
            Ev.encAddFrame r.committed]).flatten
  | [], _, _, _ => rfl
  | f :: fs, i, rows, s => by
    simp only [runFrames, List.map_cons, List.flatten_cons]
    rw [show encFilter ((frameStep P m i f rows s).events ++
        ((runFrames P m (i + 1) fs (frameStep P m i f rows s).rows
          (frameStep P m i f rows s).post).map (·.events)).flatten) =
      encFilter (frameStep P m i f rows s).events ++
        encFilter (((runFrames P m (i + 1) fs (frameStep P m i f rows s).rows
          (frameStep P m i f rows s).post).map (·.events)).flatten) from
      List.filter_append _ _]
    rw [encFilter_frameStep_events, runFrames_encFilter P m fs, frameStep_frame]

theorem events_count_finish (P : StepParams) (m : String → ℚ) :
    ∀ (fs : List ExtractedFrame) (i : Nat) (rows : List Row) (s : Surface),
      (((runFrames P m i fs rows s).map (·.events)).flatten).count Ev.encFinish = 0
  | [], _, _, _ => rfl
  | f :: fs, i, rows, s => by
    simp only [runFrames, List.map_cons, List.flatten_cons, List.count_append]
    rw [events_count_finish P m fs, Nat.add_zero, List.count_eq_zero]
    simp [frameStep_events]

theorem encFilter_encInit (opts : TextOptions) :
    encFilter (encInit opts) = encInit opts := by
  by_cases ht : opts.transparent <;>
    simp [encInit, encFilter, List.filter, isEncEv, ht]

theorem encInit_count_finish (opts : TextOptions) :
    (encInit opts).count Ev.encFinish = 0 := by
  by_cases ht : opts.transparent <;> simp [encInit, ht, List.count_cons]

theorem renderResults_eq (m : String → ℚ) (st : GifState) :
    renderResults m st = runFrames (stepParams m st).1 m 0 st.extractedFrames
      (stepParams m st).2 Surface.blank := rfl

theorem renderTrace_eq (m : String → ℚ) (st : GifState) :
    renderTrace m st = encInit st.textOptions ++
      ((renderResults m st).map (·.events)).flatten ++ [Ev.encFinish] := rfl

theorem renderResults_map_frame (m : String → ℚ) (st : GifState) :
    (renderResults m st).map (·.frame) = st.extractedFrames :=
  runFrames_map_frame _ m _ _ _ _

theorem list_headD_mem {α : Type} (l : List α) (d : α) (h : l ≠ []) :
    l.headD d ∈ l := by
  cases l with
  | nil => exact absurd rfl h
  | cons a as => simp

theorem runFrames_zip_flatMap (P : StepParams) (m : String → ℚ) :
    ∀ (fs : List ExtractedFrame) (i : Nat) (rows : List Row) (s : Surface),
      (fs.zip ((runFrames P m i fs rows s).map (·.committed))).flatMap
          (fun p => [Ev.encSetDelay p.1.delay, Ev.encSetDispose p.1.disposal,
            Ev.encAddFrame p.2]) =
        ((runFrames P m i fs rows s).map fun r =>
          [Ev.encSetDelay r.frame.delay, Ev.encSetDispose r.frame.disposal,
            Ev.encAddFrame r.committed]).flatten
  | [], _, _, _ => rfl
  | f :: fs, i, rows, s => by
    simp only [runFrames, List.map_cons, List.zip_cons_cons, List.flatMap_cons,
      List.flatten_cons]
    rw [runFrames_zip_flatMap P m fs, frameStep_frame]

/-- C1: for every processed frame of a render, if the frame's disposal is
`RestoreToBackground` (2) the post-commit working surface is fully cleared to
blank; for every other disposal value the post-commit surface is equal — in
the free surface model, byte-identical — to the `withoutText` snapshot, which
is exactly the surface captured for that frame after painting and before any
text was drawn (`preText`). -/
theorem renderResults_post_restores_snapshot (m : String → ℚ) (st : GifState) :
    ∀ r ∈ renderResults m st,
      r.post = (if r.frame.disposal = 2 then Surface.blank else r.preText) ∧
      r.snapshot = (if r.frame.disposal = 2 then none else some r.preText) := by
  intro r hr
  rw [renderResults_eq] at hr
  obtain ⟨j, f, rows', s', rfl⟩ := runFrames_mem _ m _ _ _ _ r hr
  constructor
  · rw [frameStep_frame, frameStep_post]
  · rw [frameStep_frame, frameStep_snapshot]

/-- Witness for C1 at the concrete instance `st1` (one frame, disposal 1). -/
theorem renderResults_post_restores_snapshot_w :
    ((renderResults mlen st1).headD dfr).post =
      ((renderResults mlen st1).headD dfr).preText := by
  have hne : renderResults mlen st1 ≠ [] := by decide
  have h := (renderResults_post_restores_snapshot mlen st1
    ((renderResults mlen st1).headD dfr) (list_headD_mem _ dfr hne)).1
  rw [h]
  decide

/-- C2: for every render over a non-empty frame store, the encoder sees
exactly: its initialisation, then — for each stored frame in decode order —
that frame's stored delay, then its disposal, then the composited frame
append, and finally exactly one `finish`, which is the last event of the
render. -/
theorem renderTrace_encoder_protocol (m : String → ℚ) (st : GifState)
    (_h : st.extractedFrames ≠ []) :
    encFilter (renderTrace m st) =
      encInit st.textOptions ++
        (st.extractedFrames.zip ((renderResults m st).map (·.committed))).flatMap
          (fun p => [Ev.encSetDelay p.1.delay, Ev.encSetDispose p.1.disposal,
            Ev.encAddFrame p.2]) ++
        [Ev.encFinish] ∧
    (renderTrace m st).count Ev.encFinish = 1 ∧
    (renderTrace m st).getLast? = some Ev.encFinish := by
  refine ⟨?_, ?_, ?_⟩
  · rw [renderTrace_eq m st, renderResults_eq m st]
    show List.filter isEncEv (encInit st.textOptions ++
      ((runFrames (stepParams m st).1 m 0 st.extractedFrames (stepParams m st).2
        Surface.blank).map (·.events)).flatten ++ [Ev.encFinish]) = _
    rw [List.filter_append, List.filter_append]
    rw [show List.filter isEncEv (encInit st.textOptions) = encInit st.textOptions
      from encFilter_encInit _]
    rw [show List.filter isEncEv (((runFrames (stepParams m st).1 m 0
        st.extractedFrames (stepParams m st).2 Surface.blank).map (·.events)).flatten) =
      ((runFrames (stepParams m st).1 m 0 st.extractedFrames (stepParams m st).2
        Surface.blank).map fun r => [Ev.encSetDelay r.frame.delay,
          Ev.encSetDispose r.frame.disposal, Ev.encAddFrame r.committed]).flatten
      from runFrames_encFilter _ m _ _ _ _]
    rw [runFrames_zip_flatMap (stepParams m st).1 m st.extractedFrames 0
      (stepParams m st).2 Surface.blank]
    rfl
  · rw [renderTrace_eq, List.count_append, List.count_append]
    rw [encInit_count_finish, renderResults_eq, events_count_finish]
    decide
  · rw [renderTrace_eq]
    exact List.getLast?_concat _

/-- Witness for C2 at the concrete instance `st1`. -/
theorem renderTrace_encoder_protocol_w :
    encFilter (renderTrace mlen st1) =
      encInit st1.textOptions ++
        (st1.extractedFrames.zip ((renderResults mlen st1).map (·.committed))).flatMap
          (fun p => [Ev.encSetDelay p.1.delay, Ev.encSetDispose p.1.disposal,
            Ev.encAddFrame p.2]) ++
        [Ev.encFinish] ∧
    (renderTrace mlen st1).count Ev.encFinish = 1 ∧
    (renderTrace mlen st1).getLast? = some Ev.encFinish :=
  renderTrace_encoder_protocol mlen st1 (by decide)

/-- C10: in every frame iteration, the `withoutText` snapshot is set exactly
when the frame's disposal is not 2, and the restore step never dereferences
an unset snapshot: the non-null assertion `withoutText!` is always valid. -/
theorem frameStep_snapshot_valid (P : StepParams) (m : String → ℚ) (i : Nat)
    (f : ExtractedFrame) (rows : List Row) (s : Surface) :
    (frameStep P m i f rows s).snapshot =
        (if f.disposal = 2 then none else some (frameStep P m i f rows s).preText) ∧
    (frameStep P m i f rows s).nullDeref = false :=
  ⟨frameStep_snapshot P m i f rows s, frameStep_nullDeref P m i f rows s⟩

/-! ### Split/join lemmas -/

theorem splitSp_ne_nil : ∀ l : List Char, splitSp l ≠ []
  | [] => by simp [splitSp]
  | c :: cs => by
    by_cases hc : c = ' '
    · simp [splitSp, hc]
    · simp only [splitSp, if_neg hc]
      cases h : splitSp cs with
      | nil => simp [consHead]
      | cons r rs => simp [consHead]

theorem mem_splitSp_no_space : ∀ (l : List Char), ∀ r ∈ splitSp l, ' ' ∉ r
  | [], r, hr => by
    simp only [splitSp, List.mem_singleton] at hr
    subst hr; simp
  | c :: cs, r, hr => by
    by_cases hc : c = ' '
    · simp only [splitSp, if_pos hc, List.mem_cons] at hr
      rcases hr with h | h
      · subst h; simp
      · exact mem_splitSp_no_space cs r h
    · simp only [splitSp, if_neg hc] at hr
      cases hsp : splitSp cs with
      | nil => exact absurd hsp (splitSp_ne_nil cs)
      | cons r' rs =>
        rw [hsp] at hr
        simp only [consHead, List.mem_cons] at hr
        rcases hr with h | h
        · subst h
          intro hmem
          rcases List.mem_cons.mp hmem with h1 | h1
          · exact hc h1.symm
          · exact mem_splitSp_no_space cs r'
              (by rw [hsp]; exact List.mem_cons_self r' rs) h1
        · exact mem_splitSp_no_space cs r
            (by rw [hsp]; exact List.mem_cons_of_mem _ h)

theorem splitSp_no_space : ∀ l : List Char, ' ' ∉ l → splitSp l = [l]
  | [], _ => rfl
  | c :: cs, h => by
    have hc : c ≠ ' ' := fun e => h (by simp [e])
    have hcs : ' ' ∉ cs := fun e => h (List.mem_cons_of_mem _ e)
    simp only [splitSp, if_neg hc, splitSp_no_space cs hcs, consHead]

theorem splitSp_append_space : ∀ (l rest : List Char), ' ' ∉ l →
    splitSp (l ++ ' ' :: rest) = l :: splitSp rest
  | [], rest, _ => by simp [splitSp]
  | c :: l, rest, h => by
    have hc : c ≠ ' ' := fun e => h (by simp [e])
    have hl : ' ' ∉ l := fun e => h (List.mem_cons_of_mem _ e)
    show splitSp (c :: (l ++ ' ' :: rest)) = (c :: l) :: splitSp rest
    simp only [splitSp, if_neg hc]
    rw [splitSp_append_space l rest hl]
    rfl

theorem splitSp_joinSp : ∀ (ls : List (List Char)), ls ≠ [] →
    (∀ l ∈ ls, ' ' ∉ l) → splitSp (joinSp ls) = ls
  | [], h, _ => absurd rfl h
  | [l], _, h => by
    show splitSp l = [l]
    exact splitSp_no_space l (h l (by simp))
  | l :: l' :: ls, _, h => by
    show splitSp (l ++ ' ' :: joinSp (l' :: ls)) = _
    rw [splitSp_append_space l _ (h l (by simp))]
    rw [splitSp_joinSp (l' :: ls) (by simp)
      (fun x hx => h x (List.mem_cons_of_mem _ hx))]

theorem jsSplit_ne_nil (t : String) : jsSplit t ≠ [] := fun h =>
  splitSp_ne_nil t.data (List.map_eq_nil_iff.mp h)

theorem mem_jsSplit_no_space (t : String) : ∀ r ∈ jsSplit t, ' ' ∉ r.data := by
  intro r hr
  simp only [jsSplit, List.mem_map] at hr
  obtain ⟨l, hl, rfl⟩ := hr
  exact mem_splitSp_no_space t.data l hl

theorem jsJoin_singleton (s : String) : jsJoin [s] = s := rfl

theorem jsSplit_jsJoin (xs : List String) (hne : xs ≠ [])
    (h : ∀ x ∈ xs, ' ' ∉ x.data) : jsSplit (jsJoin xs) = xs := by
  show (splitSp (joinSp (xs.map String.data))).map (fun l => (⟨l⟩ : String)) = xs
  rw [splitSp_joinSp (xs.map String.data) (by simpa using hne)
    (by intro l hl; obtain ⟨x, hx, rfl⟩ := List.mem_map.mp hl; exact h x hx)]
  rw [List.map_map]
  have hid : (fun l => (⟨l⟩ : String)) ∘ String.data = id := funext fun x => rfl
  rw [hid, List.map_id]

/-! ### Wrapping invariants -/

/-- The word sequence of a row list, each row split as JS would split it. -/
def rowsWords (rs : List Row) : List String :=
  (rs.map fun r => jsSplit r.text).flatten

theorem rowsWords_append (a b : List Row) :
    rowsWords (a ++ b) = rowsWords a ++ rowsWords b := by
  simp [rowsWords]

theorem rowsWords_singleton (t : String) : rowsWords [⟨t⟩] = jsSplit t := by
  simp [rowsWords]

/-- Main loop invariant of `createTextRows`: once the accumulated line is
non-empty (which holds from the first word on), the words of the committed
rows followed by the pending line always equal the words consumed so far, and
the pending line stays non-empty and space-free. -/
theorem wrap_inv (m : String → ℚ) (w : ℚ) (ws : List String) :
    ∀ st : WrapState,
      st.lineText ≠ [] → (∀ x ∈ st.lineText, ' ' ∉ x.data) →
      (∀ x ∈ ws, ' ' ∉ x.data) →
      rowsWords ((ws.foldl (wrapStep m w) st).rows) ++
          (ws.foldl (wrapStep m w) st).lineText
          = rowsWords st.rows ++ st.lineText ++ ws
        ∧ (ws.foldl (wrapStep m w) st).lineText ≠ []
        ∧ (∀ x ∈ (ws.foldl (wrapStep m w) st).lineText, ' ' ∉ x.data) := by
  induction ws with
  | nil =>
    intro st h1 h2 _
    exact ⟨by simp, h1, h2⟩
  | cons word ws ih =>
    intro st h1 h2 h3
    rw [List.foldl_cons]
    by_cases hov : m (jsJoin (st.previewText ++ [word])) > w
    · have hstep : wrapStep m w st word =
          ⟨[word], [word], st.rows ++ [⟨jsJoin st.lineText⟩]⟩ := by
        simp [wrapStep, hov]
      rw [hstep]
      obtain ⟨ih1, ih2, ih3⟩ := ih ⟨[word], [word], st.rows ++ [⟨jsJoin st.lineText⟩]⟩
        (by simp)
        (by intro x hx; simp only [List.mem_singleton] at hx
            rw [hx]; exact h3 word (by simp))
        (fun x hx => h3 x (List.mem_cons_of_mem _ hx))
      refine ⟨?_, ih2, ih3⟩
      rw [ih1]
      show rowsWords (st.rows ++ [⟨jsJoin st.lineText⟩]) ++ [word] ++ ws = _
      rw [rowsWords_append, rowsWords_singleton, jsSplit_jsJoin st.lineText h1 h2]
      simp [List.append_assoc]
    · have hstep : wrapStep m w st word =
          ⟨st.previewText ++ [word], st.lineText ++ [word], st.rows⟩ := by
        simp [wrapStep, hov]
      rw [hstep]
      obtain ⟨ih1, ih2, ih3⟩ := ih ⟨st.previewText ++ [word], st.lineText ++ [word], st.rows⟩
        (by simp)
        (by intro x hx
            rcases List.mem_append.mp hx with hx' | hx'
            · exact h2 x hx'
            · simp only [List.mem_singleton] at hx'
              rw [hx']; exact h3 word (by simp))
        (fun x hx => h3 x (List.mem_cons_of_mem _ hx))
      refine ⟨?_, ih2, ih3⟩
      rw [ih1]
      simp [List.append_assoc]

/-- The committed row list only ever grows. -/
theorem wrap_rows_prefix (m : String → ℚ) (w : ℚ) :
    ∀ (ws : List String) (st : WrapState),
      ∃ ext, (ws.foldl (wrapStep m w) st).rows = st.rows ++ ext
  | [], st => ⟨[], by simp⟩
  | word :: ws, st => by
    rw [List.foldl_cons]
    obtain ⟨ext, he⟩ := wrap_rows_prefix m w ws (wrapStep m w st word)
    by_cases hov : m (jsJoin (st.previewText ++ [word])) > w
    · refine ⟨⟨jsJoin st.lineText⟩ :: ext, ?_⟩
      rw [he]
      simp [wrapStep, hov]
    · refine ⟨ext, ?_⟩
      rw [he]
      simp [wrapStep, hov]

/-- C4 (amended): wrapping a text and re-splitting the produced rows yields
exactly the original word sequence, except that when the very first word by
itself already measures wider than the width, the loop commits the (empty)
initial line first, contributing one spurious empty word in front. -/
theorem createTextRows_words_roundtrip (m : String → ℚ) (w : ℚ) (t : String) :
    ((createTextRows m w t []).map (fun r => jsSplit r.text)).flatten =
      (if m ((jsSplit t).headD "") > w then [""] else []) ++ jsSplit t := by
  obtain ⟨w0, ws, hsplit⟩ := List.exists_cons_of_ne_nil (jsSplit_ne_nil t)
  have hsp : ∀ x ∈ jsSplit t, ' ' ∉ x.data := mem_jsSplit_no_space t
  show rowsWords (((jsSplit t).foldl (wrapStep m w) ⟨[], [], []⟩).rows ++
      [⟨jsJoin ((jsSplit t).foldl (wrapStep m w) ⟨[], [], []⟩).lineText⟩]) =
    (if m ((jsSplit t).headD "") > w then [""] else []) ++ jsSplit t
  rw [rowsWords_append]
  rw [hsplit] at hsp ⊢
  rw [List.foldl_cons]
  have hw0 : ' ' ∉ w0.data := hsp w0 (by simp)
  have hws : ∀ x ∈ ws, ' ' ∉ x.data := fun x hx => hsp x (List.mem_cons_of_mem _ hx)
  by_cases hov : m w0 > w
  · have hov' : w < m (jsJoin [w0]) := by rw [jsJoin_singleton]; exact hov
    have hstep : wrapStep m w ⟨[], [], []⟩ w0 = ⟨[w0], [w0], [⟨jsJoin []⟩]⟩ := by
      simp [wrapStep, hov']
    rw [hstep]
    obtain ⟨ih1, ih2, ih3⟩ := wrap_inv m w ws ⟨[w0], [w0], [⟨jsJoin []⟩]⟩
      (by simp)
      (by intro x hx; simp only [List.mem_singleton] at hx; rw [hx]; exact hw0)
      hws
    rw [rowsWords_singleton, jsSplit_jsJoin _ ih2 ih3, ih1]
    rw [if_pos (by simpa using hov)]
    show rowsWords [⟨jsJoin []⟩] ++ [w0] ++ ws = [""] ++ (w0 :: ws)
    rw [rowsWords_singleton]
    rw [show jsJoin [] = "" from rfl]
    rw [show jsSplit "" = [""] from rfl]
    simp
  · have hov' : m (jsJoin [w0]) ≤ w := by rw [jsJoin_singleton]; exact not_lt.mp hov
    have hstep : wrapStep m w ⟨[], [], []⟩ w0 = ⟨[w0], [w0], []⟩ := by
      simp [wrapStep, hov']
    rw [hstep]
    obtain ⟨ih1, ih2, ih3⟩ := wrap_inv m w ws ⟨[w0], [w0], []⟩
      (by simp)
      (by intro x hx; simp only [List.mem_singleton] at hx; rw [hx]; exact hw0)
      hws
    rw [rowsWords_singleton, jsSplit_jsJoin _ ih2 ih3, ih1]
    rw [if_neg (by simpa using hov)]
    show rowsWords [] ++ [w0] ++ ws = [] ++ (w0 :: ws)
    simp [rowsWords]

/-- C4 counterexample: with character-count measuring and width 1, the text
`"ww"` wraps to an empty row followed by `"ww"`, so re-splitting the rows
yields an extra leading empty word and the round trip fails as stated. -/
theorem createTextRows_roundtrip_cex :
    ((createTextRows mlen 1 "ww" []).map (fun r => jsSplit r.text)).flatten ≠
        jsSplit "ww" ∧
      createTextRows mlen 1 "ww" [] = [⟨""⟩, ⟨"ww"⟩] ∧
      ((createTextRows mlen 1 "ww" []).map (fun r => jsSplit r.text)).flatten =
        ["", "ww"] := by decide

/-- C9: wrapping always pushes at least one row (so the instance's row list
gains at least one entry), and — provided the measured width of the empty
string does not exceed the canvas width, as holds for any real `measureText`,
which returns 0 for the empty string — the empty text produces exactly one
row with empty content. -/
theorem createTextRows_nonempty (m : String → ℚ) (w : ℚ) (t : String)
    (rows₀ : List Row) :
    rows₀.length + 1 ≤ (createTextRows m w t rows₀).length ∧
    (m "" ≤ w → createTextRows m w "" rows₀ = rows₀ ++ [⟨""⟩]) := by
  constructor
  · show rows₀.length + 1 ≤
      (((jsSplit t).foldl (wrapStep m w) (⟨[], [], rows₀⟩ : WrapState)).rows ++
        ([⟨jsJoin ((jsSplit t).foldl (wrapStep m w)
          (⟨[], [], rows₀⟩ : WrapState)).lineText⟩] : List Row)).length
    obtain ⟨ext, he⟩ := wrap_rows_prefix m w (jsSplit t) ⟨[], [], rows₀⟩
    rw [List.length_append, he, List.length_append]
    simp
  · intro hmw
    show ((jsSplit "").foldl (wrapStep m w) (⟨[], [], rows₀⟩ : WrapState)).rows ++
        [⟨jsJoin ((jsSplit "").foldl (wrapStep m w) (⟨[], [], rows₀⟩ : WrapState)).lineText⟩] =
      rows₀ ++ [⟨""⟩]
    rw [show jsSplit "" = [""] from rfl]
    rw [List.foldl_cons, List.foldl_nil]
    have hcond : m (jsJoin [""]) ≤ w := by
      rw [jsJoin_singleton]; exact hmw
    have hstep : wrapStep m w ⟨[], [], rows₀⟩ "" = ⟨[""], [""], rows₀⟩ := by
      simp [wrapStep, hcond]
    rw [hstep]
    rw [show jsJoin [""] = "" from jsJoin_singleton ""]

/-- Witness for C9 at concrete inputs. -/
theorem createTextRows_nonempty_w :
    ([] : List Row).length + 1 ≤ (createTextRows mlen 100 "a" []).length ∧
    createTextRows mlen 100 "" [] = [] ++ [⟨""⟩] :=
  ⟨(createTextRows_nonempty mlen 100 "a" []).1,
   (createTextRows_nonempty mlen 100 "" []).2 (by decide)⟩

/-! ### Drawing order and stroke/fill claims -/

theorem getD_reverse {α : Type} (l : List α) (k : Nat) (d : α)
    (hk : k < l.length) :
    l.reverse.getD k d = l.getD (l.length - 1 - k) d := by
  rw [List.getD_eq_getElem?_getD, List.getD_eq_getElem?_getD,
    List.getElem?_reverse hk]

/-- C8: when the layout has more than one row, iteration `k` of the drawing
loop draws row `n - 1 - k` — rows in reverse, the last wrapped row at the
anchor itself (offset `0 * (lineHeight + rowGap)`) — at a y-offset of
`k * (lineHeight + rowGap)` above the anchor, stroke then fill at the same
point. -/
theorem frameStep_draws_reverse_rows (P : StepParams) (m : String → ℚ)
    (i : Nat) (f : ExtractedFrame) (rows : List Row) (s : Surface)
    (h1 : 1 < rows.length) :
    (frameStep P m i f rows s).draws =
      (List.range rows.length).flatMap fun k =>
        [Draw.strokeText (rows.getD (rows.length - 1 - k) ⟨""⟩).text P.co.x
            (P.co.y - (k : ℚ) * (P.lh + P.opts.rowGap)) P.opts.strokeColor
            P.opts.strokeWidth,
         Draw.fillText (rows.getD (rows.length - 1 - k) ⟨""⟩).text P.co.x
            (P.co.y - (k : ℚ) * (P.lh + P.opts.rowGap)) P.opts.fontColor] := by
  rw [frameStep_draws, if_neg (by omega : ¬ rows.length = 0)]
  show drawTextCalls P.opts P.co rows P.text P.lh = _
  rw [drawTextCalls, if_neg (by omega : ¬ rows.length = 1)]
  refine List.flatMap_congr ?_
  intro k hk
  rw [getD_reverse rows k ⟨""⟩ (List.mem_range.mp hk)]

/-- Witness for C8 at a concrete two-row layout. -/
theorem frameStep_draws_reverse_rows_w :
    (frameStep P3 mlen 0 f3 rows2 Surface.blank).draws =
      (List.range rows2.length).flatMap fun k =>
        [Draw.strokeText (rows2.getD (rows2.length - 1 - k) ⟨""⟩).text P3.co.x
            (P3.co.y - (k : ℚ) * (P3.lh + P3.opts.rowGap)) P3.opts.strokeColor
            P3.opts.strokeWidth,
         Draw.fillText (rows2.getD (rows2.length - 1 - k) ⟨""⟩).text P3.co.x
            (P3.co.y - (k : ℚ) * (P3.lh + P3.opts.rowGap)) P3.opts.fontColor] :=
  frameStep_draws_reverse_rows P3 mlen 0 f3 rows2 Surface.blank (by decide)

/-- C5 counterexample: with the default options the stroke color is the
"no stroke" sentinel `"transparent"`, yet the frame's draw calls still
contain a `strokeText` call — the source never tests the stroke color, so
the stroked outline is drawn (with a fully transparent color) in every
case. -/
theorem stroke_drawn_when_transparent_cex :
    defaultTextOptions.strokeColor = "transparent" ∧
    Draw.strokeText "ab" 50 40 "transparent" 1 ∈
      (frameStep P3 mlen 0 f3 [⟨"ab"⟩] Surface.blank).draws := by decide

/-- C5 (amended): the per-frame text drawing is a sequence of stroke/fill
pairs, one per drawn row: the stroked outline is drawn unconditionally with
the configured stroke color (the canvas makes a `"transparent"` stroke
invisible, but the call is not guarded in this code), and the filled glyphs
are drawn in every case, immediately after the stroke of the same row at the
same point. -/
theorem frameStep_draws_stroke_fill_pairs (P : StepParams) (m : String → ℚ)
    (i : Nat) (f : ExtractedFrame) (rows : List Row) (s : Surface) :
    ∃ items : List (String × ℚ × ℚ), items ≠ [] ∧
      (frameStep P m i f rows s).draws = items.flatMap fun it =>
        [Draw.strokeText it.1 it.2.1 it.2.2 P.opts.strokeColor P.opts.strokeWidth,
         Draw.fillText it.1 it.2.1 it.2.2 P.opts.fontColor] := by
  rw [frameStep_draws]
  set rows1 := if rows.length = 0 then createTextRows m P.width P.text rows else rows
    with hrows1
  have hne : rows1 ≠ [] := by
    rw [hrows1]
    by_cases h0 : rows.length = 0
    · rw [if_pos h0]
      intro e
      have := (createTextRows_nonempty m P.width P.text rows).1
      rw [e] at this
      simp at this
    · rw [if_neg h0]
      simpa using h0
  by_cases hlen : rows1.length = 1
  · refine ⟨[(P.text, P.co.x, P.co.y)], by simp, ?_⟩
    rw [drawTextCalls, if_pos hlen]
    rfl
  · refine ⟨(List.range rows1.length).map fun k =>
      ((rows1.reverse.getD k ⟨""⟩).text, P.co.x,
        P.co.y - (k : ℚ) * (P.lh + P.opts.rowGap)), ?_, ?_⟩
    · have : rows1.length ≠ 0 := by simpa using hne
      simp [this]
    · rw [drawTextCalls, if_neg hlen, List.flatMap_map]

/-! ### Error handling claims -/

theorem events_count_consoleError (P : StepParams) (m : String → ℚ) :
    ∀ (fs : List ExtractedFrame) (i : Nat) (rows : List Row) (s : Surface),
      (((runFrames P m i fs rows s).map (·.events)).flatten).count Ev.consoleError = 0
  | [], _, _, _ => rfl
  | f :: fs, i, rows, s => by
    simp only [runFrames, List.map_cons, List.flatten_cons, List.count_append]
    rw [events_count_consoleError P m fs, Nat.add_zero, List.count_eq_zero]
    simp [frameStep_events]

theorem encInit_count_consoleError (opts : TextOptions) :
    (encInit opts).count Ev.consoleError = 0 := by
  by_cases ht : opts.transparent <;> simp [encInit, ht, List.count_cons]

/-- The render loop never writes to the console: the catch block guarding the
per-frame paint is empty. -/
theorem trace_count_consoleError (m : String → ℚ) (st : GifState) :
    (renderTrace m st).count Ev.consoleError = 0 := by
  rw [renderTrace_eq, List.count_append, List.count_append]
  rw [encInit_count_consoleError, renderResults_eq, events_count_consoleError]
  decide

/-- C6 counterexample: at the concrete instance `st6`, whose single frame
fails to paint, nothing is logged — the render trace contains no
console-error event, contradicting the claim that the failure is caught
*and logged* (the catch block of the render loop is empty). -/
theorem paint_failure_not_logged_cex :
    paintFails st6.retained ((st6.extractedFrames.getD 0 dfrm).imageData) = true ∧
    (renderTrace mlen st6).count Ev.consoleError = 0 := by decide

/-- C6 (amended): a frame whose raw-pixel paint fails is recovered silently
(nothing is logged): the paint failure leaves the surface unchanged, so the
frame proceeds through snapshot, text, commit and restore with whatever
surface state exists; the frame is still handed to the encoder with its
stored delay and disposal; every stored frame is still processed in order;
and the render completes normally, its trace ending in `finish` — the
failure is never surfaced as a pipeline-level error. -/
theorem paint_failure_recovered (m : String → ℚ) (st : GifState) (i : Nat)
    (hi : i < st.extractedFrames.length)
    (_hbad : paintFails st.retained
      ((st.extractedFrames.getD i dfrm).imageData) = true) :
    (renderResults m st).map (·.frame) = st.extractedFrames ∧
    ((renderResults m st).getD i dfr).frame = st.extractedFrames.getD i dfrm ∧
    encFilter ((renderResults m st).getD i dfr).events =
      [Ev.encSetDelay (st.extractedFrames.getD i dfrm).delay,
       Ev.encSetDispose (st.extractedFrames.getD i dfrm).disposal,
       Ev.encAddFrame ((renderResults m st).getD i dfr).committed] ∧
    (renderTrace m st).count Ev.consoleError = 0 ∧
    (renderTrace m st).getLast? = some Ev.encFinish ∧
    (∀ (P : StepParams) (j : Nat) (f : ExtractedFrame) (rows : List Row)
      (s : Surface), paintFails P.retained f.imageData = true →
      (frameStep P m j f rows s).preText = s) := by
  obtain ⟨rows', s', hg⟩ := runFrames_getD (stepParams m st).1 m
    st.extractedFrames 0 (stepParams m st).2 Surface.blank i hi
  have hg' : (renderResults m st).getD i dfr =
      frameStep (stepParams m st).1 m (0 + i)
        (st.extractedFrames.getD i dfrm) rows' s' := by
    rw [renderResults_eq]; exact hg
  refine ⟨renderResults_map_frame m st, ?_, ?_,
    trace_count_consoleError m st, ?_, ?_⟩
  · rw [hg', frameStep_frame]
  · rw [hg', encFilter_frameStep_events]
  · rw [renderTrace_eq]
    exact List.getLast?_concat _
  · intro P j f rows s hb
    rw [frameStep_preText]
    exact paintStep_of_fails s P.retained f.imageData hb

/-- Witness for C6 at the concrete failing-frame instance `st6`. -/
theorem paint_failure_recovered_w :
    (renderResults mlen st6).map (·.frame) = st6.extractedFrames ∧
    ((renderResults mlen st6).getD 0 dfr).frame = st6.extractedFrames.getD 0 dfrm ∧
    encFilter ((renderResults mlen st6).getD 0 dfr).events =
      [Ev.encSetDelay (st6.extractedFrames.getD 0 dfrm).delay,
       Ev.encSetDispose (st6.extractedFrames.getD 0 dfrm).disposal,
       Ev.encAddFrame ((renderResults mlen st6).getD 0 dfr).committed] ∧
    (renderTrace mlen st6).count Ev.consoleError = 0 ∧
    (renderTrace mlen st6).getLast? = some Ev.encFinish ∧
    (∀ (P : StepParams) (j : Nat) (f : ExtractedFrame) (rows : List Row)
      (s : Surface), paintFails P.retained f.imageData = true →
      (frameStep P mlen j f rows s).preText = s) :=
  paint_failure_recovered mlen st6 0 (by decide) (by decide)

/-- C7 counterexample: `toBuffer` performs no check at all — with the buffer
absent, `return this.buffer!` yields ok(null) to the caller instead of
raising the distinct "no output produced" error the claim requires of every
output accessor. -/
theorem toBuffer_missing_no_error_cex :
    toBufferReturn none = Except.ok none := rfl

/-- C7 (amended): only `toFile` raises the distinct error, and only when the
buffer is absent (null): an empty-but-present buffer is a truthy JS object
and is written without error, and `toBuffer` returns the buffer unchecked,
never raising. -/
theorem output_buffer_check :
    toFileCheck none = Except.error "Result GIF buffer returned empty" ∧
    (∀ b, toFileCheck (some b) = Except.ok true) ∧
    (∀ b, toBufferReturn b = Except.ok b) ∧
    (∀ (m : String → ℚ) (st : GifState),
      (toFile m st).2 = toFileCheck (renderGIF m st).buffer) ∧
    (∀ (m : String → ℚ) (st : GifState),
      (toBuffer m st).2 = toBufferReturn (renderGIF m st).buffer) :=
  ⟨rfl, fun _ => rfl, fun _ => rfl, fun _ _ => rfl, fun _ _ => rfl⟩

deriving instance DecidableEq for Except

/-- C3: re-rendering is not idempotent.  On the fresh instance `st3` the
text `"ab"` wraps to one row; `toBuffer` renders and leaves that row stored.
A second `toBuffer` call re-runs the render, and because the render calls
`createTextRows` unconditionally — and `createTextRows` pushes onto
`this.rows` without clearing it — the second render lays out two (duplicate)
rows at a different anchor, so the two calls return different buffers. -/
theorem toBuffer_rerender_diverges :
    st3.rows = [] ∧
    (toBuffer mlen st3).1.rows = [⟨"ab"⟩] ∧
    (toBuffer mlen (toBuffer mlen st3).1).1.rows = [⟨"ab"⟩, ⟨"ab"⟩] ∧
    (toBuffer mlen st3).2 ≠ (toBuffer mlen (toBuffer mlen st3).1).2 := by
  decide
